import Mathlib

/-!
Shallow embedding of the KKND2 map decoder (`src/map.rs`) and proofs about it.

The Rust code reads a seekable byte stream (`BufReader<R>`) with `byteorder`
little-endian primitives.  We model the reader as an immutable byte list plus
a cursor position.  All machine-integer arithmetic from the source (`u32`
addition/subtraction/multiplication) is modelled on `Nat` with explicit
`% 2^32` wrapping where the source computes in `u32` (release-mode wrapping
semantics), and `% 2^64` where it computes in `u64`.  Fallible reads return
`Except DecodeError`; a Rust `panic` from an out-of-range palette index is
modelled as the distinguished error `paletteIndexOutOfRange`.
-/

namespace KKND2

/-- The `BufReader` over a seekable source: an immutable byte buffer plus a
stream position.  Bytes are `Nat`s (well-formed streams have them `< 256`). -/
structure Reader where
  data : List Nat
  pos : Nat
  deriving DecidableEq

/-- Decode failures of the map parser.  `eof` models an I/O `UnexpectedEof`;
`invalidMagic` carries the layer index, the magic value found and the stream
offset exactly as the `format!` in `parse_map` does;
`paletteIndexOutOfRange` models the Rust panic on `palette[palette_index]`
with an out-of-bounds index. -/
inductive DecodeError where
  | eof
  | invalidMagic (layer : Nat) (magic : Nat) (offset : Nat)
  | paletteIndexOutOfRange
  deriving DecidableEq

/-- `struct Colour { r: u8, g: u8, b: u8 }` from `map.rs`. -/
structure Colour where
  r : Nat
  g : Nat
  b : Nat
  deriving DecidableEq

/-- `pub struct Tile { pub pixels: Vec<u8> }` from `map.rs`. -/
structure Tile where
  pixels : List Nat
  deriving DecidableEq

/-- `pub struct MapLayer` from `map.rs`.  The `HashMap<u32, Tile>` is modelled
as an association list in insertion order (keys are never inserted twice, see
the scan loop). -/
structure MapLayer where
  map_width : Nat
  map_height : Nat
  tile_width : Nat
  tile_height : Nat
  tile_map : List Nat
  tiles : List (Nat × Tile)
  deriving DecidableEq

/-- `pub struct Map { pub layers: Vec<MapLayer> }` from `map.rs`. -/
structure GameMap where
  layers : List MapLayer
  deriving DecidableEq

/-- `const DATA_HEADER_SIZE: u32 = 8;` -/
def DATA_HEADER_SIZE : Nat := 8

/-- The per-layer magic tag checked in `parse_map`. -/
def LAYER_MAGIC : Nat := 0x5343524c

/-- `reader.seek(SeekFrom::Start(offset))`: seeking never fails and may move
past the end of the data. -/
def seekTo (r : Reader) (offset : Nat) : Reader :=
  ⟨r.data, offset⟩

/-- `reader.seek_relative(n)` for a forward skip of `n` bytes. -/
def seekRelative (r : Reader) (n : Nat) : Reader :=
  ⟨r.data, r.pos + n⟩

/-- `reader.read_u16::<LittleEndian>()`: two bytes, least significant first. -/
def readU16 (r : Reader) : Except DecodeError (Nat × Reader) :=
  match r.data.get? r.pos, r.data.get? (r.pos + 1) with
  | some b0, some b1 => .ok (b0 + 256 * b1, ⟨r.data, r.pos + 2⟩)
  | _, _ => .error .eof

/-- `reader.read_u32::<LittleEndian>()`: four bytes, least significant first. -/
def readU32 (r : Reader) : Except DecodeError (Nat × Reader) :=
  match r.data.get? r.pos, r.data.get? (r.pos + 1),
        r.data.get? (r.pos + 2), r.data.get? (r.pos + 3) with
  | some b0, some b1, some b2, some b3 =>
      .ok (b0 + 256 * b1 + 65536 * b2 + 16777216 * b3, ⟨r.data, r.pos + 4⟩)
  | _, _, _, _ => .error .eof

/-- `reader.read_exact(buf)` for a buffer of `n` bytes: succeeds returning the
`n` bytes starting at the cursor iff they all exist (a zero-length read always
succeeds, as in Rust). -/
def readExact (r : Reader) (n : Nat) : Except DecodeError (List Nat × Reader) :=
  if n = 0 then .ok ([], r)
  else if r.pos + n ≤ r.data.length then
    .ok ((r.data.drop r.pos).take n, ⟨r.data, r.pos + n⟩)
  else .error .eof

/-- The `u32` wrapping evaluation of `offset + DATA_HEADER_SIZE - file_offsets`
on line 114 of `map.rs` (release semantics: wrapping add then wrapping sub). -/
def tileDataOffset (key fileOffsets : Nat) : Nat :=
  ((key + DATA_HEADER_SIZE) % 2 ^ 32 + (2 ^ 32 - fileOffsets % 2 ^ 32)) % 2 ^ 32

/-- `fn read_raw_tile`: save the stream position, seek to `offset`, read
`width*height` (computed in wrapping `u32`) raw bytes, seek back to the saved
position. -/
def read_raw_tile (r : Reader) (offset : Nat) (width height : Nat) :
    Except DecodeError (List Nat × Reader) :=
  let saved_stream_position := r.pos
  let r1 := seekTo r offset
  match readExact r1 (width * height % 2 ^ 32) with
  | .error e => .error e
  | .ok (buffer, r2) => .ok (buffer, seekTo r2 saved_stream_position)

/-- `fn create_tile_from_raw`: map each raw palette-index byte to four RGBA
bytes; index 0 becomes (0,0,0,0), any other index `i` becomes
`(palette[i].r, palette[i].g, palette[i].b, 0xff)`.  The Rust indexing
`palette[palette_index]` panics when out of range; that is the `none` case. -/
def create_tile_from_raw (data : List Nat) (palette : List Colour) :
    Option (List Nat) :=
  match data with
  | [] => some []
  | b :: rest =>
    if b = 0 then
      (create_tile_from_raw rest palette).map (fun px => 0 :: 0 :: 0 :: 0 :: px)
    else
      match palette.get? b with
      | none => none
      | some c =>
        (create_tile_from_raw rest palette).map
          (fun px => c.r :: c.g :: c.b :: 255 :: px)

/-- `tiles.contains_key(&k)` / the read side of the `HashMap<u32, Tile>`. -/
def lookupTile (k : Nat) : List (Nat × Tile) → Option Tile
  | [] => none
  | (k', t) :: rest => if k = k' then some t else lookupTile k rest

/-- The `for _i in 0..map_size` scan loop of `read_layer` (lines 101-121 of
`map.rs`): read a `u32` tile code, push its normalization
`tile_id - tile_id % 4` onto `tile_map`, and for a non-zero key not in the
cache read the raw tile at `tileDataOffset`, rasterize it and insert it. -/
def scanTiles (fileOffsets tile_width tile_height : Nat) (palette : List Colour) :
    Nat → Reader → List Nat → List (Nat × Tile) →
    Except DecodeError (List Nat × List (Nat × Tile) × Reader)
  | 0, r, tile_map, tiles => .ok (tile_map, tiles, r)
  | n + 1, r, tile_map, tiles =>
    match readU32 r with
    | .error e => .error e
    | .ok (tile_id, r1) =>
      let key := tile_id - tile_id % 4
      let tile_map1 := tile_map ++ [key]
      if key = 0 then
        scanTiles fileOffsets tile_width tile_height palette n r1 tile_map1 tiles
      else if (lookupTile key tiles).isSome then
        scanTiles fileOffsets tile_width tile_height palette n r1 tile_map1 tiles
      else
        match read_raw_tile r1 (tileDataOffset key fileOffsets) tile_width tile_height with
        | .error e => .error e
        | .ok (raw_tile, r2) =>
          match create_tile_from_raw raw_tile palette with
          | none => .error .paletteIndexOutOfRange
          | some px =>
            scanTiles fileOffsets tile_width tile_height palette n r2 tile_map1
              ((key, ⟨px⟩) :: tiles)

/-- `fn read_layer`: read `tile_width`, `tile_height`, `map_width`,
`map_height`, skip 12 bytes, then scan `(map_width * map_height) as usize`
tile codes (the product computed in wrapping `u32`). -/
def read_layer (r : Reader) (fileOffsets : Nat) (palette : List Colour) :
    Except DecodeError (MapLayer × Reader) :=
  match readU32 r with
  | .error e => .error e
  | .ok (tile_width, r1) =>
    match readU32 r1 with
    | .error e => .error e
    | .ok (tile_height, r2) =>
      match readU32 r2 with
      | .error e => .error e
      | .ok (map_width, r3) =>
        match readU32 r3 with
        | .error e => .error e
        | .ok (map_height, r4) =>
          let r5 := seekRelative r4 12
          match scanTiles fileOffsets tile_width tile_height palette
              (map_width * map_height % 2 ^ 32) r5 [] [] with
          | .error e => .error e
          | .ok (tile_map, tiles, r6) =>
            .ok (⟨map_width, map_height, tile_width, tile_height, tile_map, tiles⟩, r6)

/-- The palette-entry expansion from lines 152-156 of `map.rs`:
`r = ((p & 0x7c00) >> 7) & 0xff`, `g = ((p & 0x03e0) >> 2) & 0xff`,
`b = ((p & 0x001f) << 3) & 0xff`. -/
def decodeColour (colour_packed : Nat) : Colour :=
  ⟨((colour_packed &&& 0x7c00) >>> 7) &&& 0xff,
   ((colour_packed &&& 0x03e0) >>> 2) &&& 0xff,
   ((colour_packed &&& 0x001f) <<< 3) &&& 0xff⟩

/-- The `for _i in 0..layers` loop reading the layer-offset table. -/
def readOffsets : Nat → Reader → Except DecodeError (List Nat × Reader)
  | 0, r => .ok ([], r)
  | n + 1, r =>
    match readU32 r with
    | .error e => .error e
    | .ok (lo, r1) =>
      match readOffsets n r1 with
      | .error e => .error e
      | .ok (rest, r2) => .ok (lo :: rest, r2)

/-- The `for _i in 0..palette_size` loop reading packed `u16` palette
entries and expanding them with `decodeColour`. -/
def readPalette : Nat → Reader → Except DecodeError (List Colour × Reader)
  | 0, r => .ok ([], r)
  | n + 1, r =>
    match readU16 r with
    | .error e => .error e
    | .ok (p, r1) =>
      match readPalette n r1 with
      | .error e => .error e
      | .ok (rest, r2) => .ok (decodeColour p :: rest, r2)

/-- The `u64` evaluation of `layer_offsets[i] + DATA_HEADER_SIZE as u64 -
file_offsets as u64` (line 163 of `map.rs`), wrapping at `2^64`. -/
def layerSeekTarget (layer_offset fileOffsets : Nat) : Nat :=
  (layer_offset % 2 ^ 64 + DATA_HEADER_SIZE + (2 ^ 64 - fileOffsets % 2 ^ 64)) % 2 ^ 64

/-- The `for i in 0..layers` loop of `parse_map`: seek to the layer, check the
magic tag (mismatch is a fatal error naming the layer index, the magic found
and the stream position after the read), then `read_layer`. -/
def parseLayers (fileOffsets : Nat) (palette : List Colour) :
    List Nat → Nat → Reader → Except DecodeError (List MapLayer × Reader)
  | [], _, r => .ok ([], r)
  | lo :: rest, i, r =>
    let r1 := seekTo r (layerSeekTarget lo fileOffsets)
    match readU32 r1 with
    | .error e => .error e
    | .ok (layer_magic, r2) =>
      if layer_magic = LAYER_MAGIC then
        match read_layer r2 fileOffsets palette with
        | .error e => .error e
        | .ok (layer, r3) =>
          match parseLayers fileOffsets palette rest (i + 1) r3 with
          | .error e => .error e
          | .ok (layers, r4) => .ok (layer :: layers, r4)
      else .error (.invalidMagic i layer_magic r2.pos)

/-- `fn parse_map`: skip the 4-byte version field, read the layer count, the
layer-offset table, the palette size and the palette, then decode each layer. -/
def parse_map (r : Reader) (fileOffsets : Nat) : Except DecodeError GameMap :=
  let r0 := seekRelative r 4
  match readU32 r0 with
  | .error e => .error e
  | .ok (layers, r1) =>
    match readOffsets layers r1 with
    | .error e => .error e
    | .ok (layer_offsets, r2) =>
      match readU32 r2 with
      | .error e => .error e
      | .ok (palette_size, r3) =>
        match readPalette palette_size r3 with
        | .error e => .error e
        | .ok (palette, r4) =>
          match parseLayers fileOffsets palette layer_offsets 0 r4 with
          | .error e => .error e
          | .ok (map_layers, _) => .ok ⟨map_layers⟩

/-- Spec-side palette expansion, written from the spec's words for the C3
refinement: red is bits 14-10, green bits 9-5, blue bits 4-0, each 5-bit
field scaled into the high bits of an 8-bit channel. -/
def specPaletteColour (p : Nat) : Colour :=
  ⟨((p >>> 10) &&& 0x1f) <<< 3, ((p >>> 5) &&& 0x1f) <<< 3, (p &&& 0x1f) <<< 3⟩

/-! ### Palette expansion lemmas (C3, C10) -/

lemma decode_r_eq (p : Nat) :
    ((p &&& 0x7c00) >>> 7) &&& 0xff = ((p >>> 10) &&& 0x1f) <<< 3 := by
  have e1 : (0x7c00 : Nat) = (2 ^ 5 - 1) <<< 10 := by rw [Nat.shiftLeft_eq]; norm_num
  have e2 : (0xff : Nat) = 2 ^ 8 - 1 := by norm_num
  have e3 : (0x1f : Nat) = 2 ^ 5 - 1 := by norm_num
  apply Nat.eq_of_testBit_eq
  intro j
  simp only [e1, e2, e3, Nat.testBit_and, Nat.testBit_shiftRight,
    Nat.testBit_shiftLeft, Nat.testBit_two_pow_sub_one]
  rcases Nat.lt_or_ge j 3 with h | h
  · have h1 : ¬ (10 ≤ 7 + j) := by omega
    have h2 : ¬ (3 ≤ j) := by omega
    simp [h1, h2]
  · rcases Nat.lt_or_ge j 8 with h8 | h8
    · have h1 : 10 + (j - 3) = 7 + j := by omega
      simp [h1, show 10 ≤ 7 + j by omega, show 7 + j - 10 < 5 by omega,
        h, show j - 3 < 5 by omega, h8]
    · have h1 : ¬ (j < 8) := by omega
      have h2 : ¬ (j - 3 < 5) := by omega
      simp [h1, h2]

lemma decode_g_eq (p : Nat) :
    ((p &&& 0x03e0) >>> 2) &&& 0xff = ((p >>> 5) &&& 0x1f) <<< 3 := by
  have e1 : (0x03e0 : Nat) = (2 ^ 5 - 1) <<< 5 := by rw [Nat.shiftLeft_eq]; norm_num
  have e2 : (0xff : Nat) = 2 ^ 8 - 1 := by norm_num
  have e3 : (0x1f : Nat) = 2 ^ 5 - 1 := by norm_num
  apply Nat.eq_of_testBit_eq
  intro j
  simp only [e1, e2, e3, Nat.testBit_and, Nat.testBit_shiftRight,
    Nat.testBit_shiftLeft, Nat.testBit_two_pow_sub_one]
  rcases Nat.lt_or_ge j 3 with h | h
  · have h1 : ¬ (5 ≤ 2 + j) := by omega
    have h2 : ¬ (3 ≤ j) := by omega
    simp [h1, h2]
  · rcases Nat.lt_or_ge j 8 with h8 | h8
    · have h1 : 5 + (j - 3) = 2 + j := by omega
      simp [h1, show 5 ≤ 2 + j by omega, show 2 + j - 5 < 5 by omega,
        h, show j - 3 < 5 by omega, h8]
    · have h1 : ¬ (j < 8) := by omega
      have h2 : ¬ (j - 3 < 5) := by omega
      simp [h1, h2]

lemma and_1f_shiftLeft_le (p : Nat) : (p &&& 0x1f) <<< 3 ≤ 248 := by
  have h : p &&& 0x1f ≤ 0x1f := Nat.and_le_right
  rw [Nat.shiftLeft_eq]
  calc (p &&& 0x1f) * 2 ^ 3 ≤ 0x1f * 2 ^ 3 := Nat.mul_le_mul_right _ h
  _ = 248 := by norm_num

lemma decode_b_eq (p : Nat) :
    ((p &&& 0x001f) <<< 3) &&& 0xff = (p &&& 0x1f) <<< 3 := by
  have e2 : (0xff : Nat) = 2 ^ 8 - 1 := by norm_num
  rw [e2, Nat.and_pow_two_sub_one_eq_mod]
  exact Nat.mod_eq_of_lt (lt_of_le_of_lt (and_1f_shiftLeft_le p) (by norm_num))

lemma decodeColour_eq_spec (p : Nat) : decodeColour p = specPaletteColour p := by
  unfold decodeColour specPaletteColour
  rw [decode_r_eq, decode_g_eq, decode_b_eq]

lemma channel_shape (x : Nat) :
    8 ∣ (x &&& 0x1f) <<< 3 ∧ (x &&& 0x1f) <<< 3 ≤ 248 := by
  constructor
  · rw [Nat.shiftLeft_eq]
    exact Dvd.intro_left _ rfl
  · exact and_1f_shiftLeft_le x

/-! ### Reader primitive lemmas -/

lemma readExact_ok {r : Reader} {n : Nat} {buf : List Nat} {r2 : Reader}
    (h : readExact r n = .ok (buf, r2)) :
    r2.data = r.data ∧ buf = (r.data.drop r.pos).take n := by
  unfold readExact at h
  split at h
  · injection h with h'
    injection h' with h1 h2
    subst h1 h2
    refine ⟨rfl, ?_⟩
    simp_all
  · split at h
    · injection h with h'
      injection h' with h1 h2
      subst h1 h2
      exact ⟨rfl, rfl⟩
    · exact absurd h (by simp)

lemma readU32_ok {r : Reader} {v : Nat} {r1 : Reader}
    (h : readU32 r = .ok (v, r1)) :
    r1 = ⟨r.data, r.pos + 4⟩ ∧ r.pos + 4 ≤ r.data.length := by
  unfold readU32 at h
  split at h
  case _ b0 b1 b2 b3 h0 h1 h2 h3 =>
    injection h with h'
    injection h' with hv hr
    subst hr
    refine ⟨rfl, ?_⟩
    have := (List.get?_eq_some.mp h3).1
    omega
  case _ => exact absurd h (by simp)

lemma read_raw_tile_ok {r : Reader} {off w h : Nat} {buf : List Nat} {r' : Reader}
    (ho : read_raw_tile r off w h = .ok (buf, r')) :
    r' = r ∧ buf = (r.data.drop off).take (w * h % 2 ^ 32) := by
  unfold read_raw_tile at ho
  simp only [] at ho
  cases hE : readExact (seekTo r off) (w * h % 2 ^ 32) with
  | error e => rw [hE] at ho; exact absurd ho (by simp)
  | ok p =>
    obtain ⟨buf2, r2⟩ := p
    rw [hE] at ho
    injection ho with h'
    injection h' with hb hr
    obtain ⟨hd, hbuf⟩ := readExact_ok hE
    subst hb
    constructor
    · rw [← hr]
      show (⟨r2.data, r.pos⟩ : Reader) = r
      rw [hd]
      rfl
    · exact hbuf

/-- Accumulated shape of the scan loop: a successful scan of `n` tile codes
appends exactly `n` normalized keys to `tile_map`, reads `4*n` bytes
sequentially (tile decodes restore the cursor), and leaves the data
unchanged. -/
lemma scanTiles_shape (fo tw th : Nat) (pal : List Colour) :
    ∀ (n : Nat) (r : Reader) (tm : List Nat) (ts : List (Nat × Tile))
      (tm' : List Nat) (ts' : List (Nat × Tile)) (r' : Reader),
      scanTiles fo tw th pal n r tm ts = .ok (tm', ts', r') →
      tm'.length = tm.length + n ∧ r'.data = r.data ∧ r'.pos = r.pos + 4 * n ∧
      (0 < n → r.pos + 4 * n ≤ r.data.length) := by
  intro n
  induction n with
  | zero =>
    intro r tm ts tm' ts' r' h
    injection h with h'
    injection h' with h1 h2
    injection h2 with h2 h3
    subst h1 h2 h3
    simp
  | succ n ih =>
    intro r tm ts tm' ts' r' h
    rw [scanTiles] at h
    cases hU : readU32 r with
    | error e => rw [hU] at h; exact absurd h (by simp)
    | ok p =>
      obtain ⟨tile_id, r1⟩ := p
      rw [hU] at h
      simp only [] at h
      obtain ⟨hr1, hlen1⟩ := readU32_ok hU
      subst hr1
      by_cases hk : tile_id - tile_id % 4 = 0
      · rw [if_pos hk] at h
        obtain ⟨l1, d1, p1, b1⟩ := ih _ _ _ _ _ _ h
        refine ⟨by simp [l1]; omega, d1, by simp at p1; omega, ?_⟩
        intro _
        rcases Nat.eq_zero_or_pos n with hn | hn
        · subst hn; simp at hlen1 ⊢; omega
        · have := b1 hn; simp at this; omega
      · rw [if_neg hk] at h
        by_cases hmem : (lookupTile (tile_id - tile_id % 4) ts).isSome
        · rw [if_pos hmem] at h
          obtain ⟨l1, d1, p1, b1⟩ := ih _ _ _ _ _ _ h
          refine ⟨by simp [l1]; omega, d1, by simp at p1; omega, ?_⟩
          intro _
          rcases Nat.eq_zero_or_pos n with hn | hn
          · subst hn; simp at hlen1 ⊢; omega
          · have := b1 hn; simp at this; omega
        · rw [if_neg hmem] at h
          cases hRT : read_raw_tile ⟨r.data, r.pos + 4⟩
              (tileDataOffset (tile_id - tile_id % 4) fo) tw th with
          | error e => rw [hRT] at h; exact absurd h (by simp)
          | ok q =>
            obtain ⟨raw, r2⟩ := q
            rw [hRT] at h
            simp only [] at h
            have hr2 : r2 = ⟨r.data, r.pos + 4⟩ := (read_raw_tile_ok hRT).1
            subst hr2
            cases hCT : create_tile_from_raw raw pal with
            | none => rw [hCT] at h; exact absurd h (by simp)
            | some px =>
              rw [hCT] at h
              obtain ⟨l1, d1, p1, b1⟩ := ih _ _ _ _ _ _ h
              refine ⟨by simp [l1]; omega, d1, by simp at p1; omega, ?_⟩
              intro _
              rcases Nat.eq_zero_or_pos n with hn | hn
              · subst hn; simp at hlen1 ⊢; omega
              · have := b1 hn; simp at this; omega

lemma lookupTile_eq_none_iff {k : Nat} : ∀ {ts : List (Nat × Tile)},
    lookupTile k ts = none ↔ k ∉ ts.map Prod.fst := by
  intro ts
  induction ts with
  | nil => simp [lookupTile]
  | cons kt rest ih =>
    obtain ⟨k', t⟩ := kt
    by_cases hk : k = k' <;> simp [lookupTile, hk, ih]

/-- Key-set invariant of the scan loop: if the keys of the cache are exactly
the non-zero entries of the accumulated `tile_map` (with no duplicate keys),
the same holds after scanning `n` more codes. -/
lemma scanTiles_keys (fo tw th : Nat) (pal : List Colour) :
    ∀ (n : Nat) (r : Reader) (tm : List Nat) (ts : List (Nat × Tile))
      (tm' : List Nat) (ts' : List (Nat × Tile)) (r' : Reader),
      scanTiles fo tw th pal n r tm ts = .ok (tm', ts', r') →
      (∀ k, (lookupTile k ts).isSome ↔ (k ∈ tm ∧ k ≠ 0)) →
      (ts.map Prod.fst).Nodup →
      (∀ k, (lookupTile k ts').isSome ↔ (k ∈ tm' ∧ k ≠ 0)) ∧
      (ts'.map Prod.fst).Nodup := by
  intro n
  induction n with
  | zero =>
    intro r tm ts tm' ts' r' h hInv hND
    injection h with h'
    injection h' with h1 h2
    injection h2 with h2 h3
    subst h1 h2
    exact ⟨hInv, hND⟩
  | succ n ih =>
    intro r tm ts tm' ts' r' h hInv hND
    rw [scanTiles] at h
    cases hU : readU32 r with
    | error e => rw [hU] at h; exact absurd h (by simp)
    | ok p =>
      obtain ⟨tile_id, r1⟩ := p
      rw [hU] at h
      simp only [] at h
      by_cases hk : tile_id - tile_id % 4 = 0
      · rw [if_pos hk] at h
        refine ih _ _ _ _ _ _ h ?_ hND
        intro k
        rw [hInv k, hk]
        simp only [List.mem_append, List.mem_singleton]
        constructor
        · rintro ⟨hm, hne⟩; exact ⟨Or.inl hm, hne⟩
        · rintro ⟨hm | hm, hne⟩
          · exact ⟨hm, hne⟩
          · exact absurd hm hne
      · rw [if_neg hk] at h
        by_cases hmem : (lookupTile (tile_id - tile_id % 4) ts).isSome
        · rw [if_pos hmem] at h
          have hkeymem : tile_id - tile_id % 4 ∈ tm :=
            ((hInv _).mp hmem).1
          refine ih _ _ _ _ _ _ h ?_ hND
          intro k
          rw [hInv k]
          simp only [List.mem_append, List.mem_singleton]
          constructor
          · rintro ⟨hm, hne⟩; exact ⟨Or.inl hm, hne⟩
          · rintro ⟨hm | hm, hne⟩
            · exact ⟨hm, hne⟩
            · subst hm; exact ⟨hkeymem, hne⟩
        · rw [if_neg hmem] at h
          cases hRT : read_raw_tile r1 (tileDataOffset (tile_id - tile_id % 4) fo) tw th with
          | error e => rw [hRT] at h; exact absurd h (by simp)
          | ok q =>
            obtain ⟨raw, r2⟩ := q
            rw [hRT] at h
            simp only [] at h
            cases hCT : create_tile_from_raw raw pal with
            | none => rw [hCT] at h; exact absurd h (by simp)
            | some px =>
              rw [hCT] at h
              have hnone : lookupTile (tile_id - tile_id % 4) ts = none :=
                Option.not_isSome_iff_eq_none.mp hmem
              refine ih _ _ _ _ _ _ h ?_ ?_
              · intro k
                by_cases hkk : k = tile_id - tile_id % 4
                · subst hkk
                  constructor
                  · intro _
                    exact ⟨List.mem_append_right _ (List.mem_singleton.mpr rfl), hk⟩
                  · intro _
                    simp [lookupTile]
                · simp only [lookupTile, if_neg hkk]
                  rw [hInv k]
                  simp only [List.mem_append, List.mem_singleton]
                  constructor
                  · rintro ⟨hm, hne⟩; exact ⟨Or.inl hm, hne⟩
                  · rintro ⟨hm | hm, hne⟩
                    · exact ⟨hm, hne⟩
                    · exact absurd hm hkk
              · simp only [List.map_cons, List.nodup_cons]
                exact ⟨lookupTile_eq_none_iff.mp hnone, hND⟩

/-- Divisibility invariant of the scan loop: every pushed `tile_map` value
and every inserted cache key is the normalization `tile_id - tile_id % 4`,
hence divisible by 4. -/
lemma scanTiles_div4 (fo tw th : Nat) (pal : List Colour) :
    ∀ (n : Nat) (r : Reader) (tm : List Nat) (ts : List (Nat × Tile))
      (tm' : List Nat) (ts' : List (Nat × Tile)) (r' : Reader),
      scanTiles fo tw th pal n r tm ts = .ok (tm', ts', r') →
      (∀ v ∈ tm, 4 ∣ v) → (∀ kt ∈ ts, 4 ∣ kt.1) →
      (∀ v ∈ tm', 4 ∣ v) ∧ (∀ kt ∈ ts', 4 ∣ kt.1) := by
  intro n
  induction n with
  | zero =>
    intro r tm ts tm' ts' r' h hTM hTS
    injection h with h'
    injection h' with h1 h2
    injection h2 with h2 h3
    subst h1 h2
    exact ⟨hTM, hTS⟩
  | succ n ih =>
    intro r tm ts tm' ts' r' h hTM hTS
    rw [scanTiles] at h
    cases hU : readU32 r with
    | error e => rw [hU] at h; exact absurd h (by simp)
    | ok p =>
      obtain ⟨tile_id, r1⟩ := p
      rw [hU] at h
      simp only [] at h
      have hdvd : 4 ∣ tile_id - tile_id % 4 := by
        have : tile_id - tile_id % 4 = 4 * (tile_id / 4) := by omega
        exact ⟨tile_id / 4, this⟩
      have hTM1 : ∀ v ∈ tm ++ [tile_id - tile_id % 4], 4 ∣ v := by
        intro v hv
        rcases List.mem_append.mp hv with hv | hv
        · exact hTM v hv
        · rw [List.mem_singleton.mp hv]; exact hdvd
      by_cases hk : tile_id - tile_id % 4 = 0
      · rw [if_pos hk] at h
        exact ih _ _ _ _ _ _ h hTM1 hTS
      · rw [if_neg hk] at h
        by_cases hmem : (lookupTile (tile_id - tile_id % 4) ts).isSome
        · rw [if_pos hmem] at h
          exact ih _ _ _ _ _ _ h hTM1 hTS
        · rw [if_neg hmem] at h
          cases hRT : read_raw_tile r1 (tileDataOffset (tile_id - tile_id % 4) fo) tw th with
          | error e => rw [hRT] at h; exact absurd h (by simp)
          | ok q =>
            obtain ⟨raw, r2⟩ := q
            rw [hRT] at h
            simp only [] at h
            cases hCT : create_tile_from_raw raw pal with
            | none => rw [hCT] at h; exact absurd h (by simp)
            | some px =>
              rw [hCT] at h
              refine ih _ _ _ _ _ _ h hTM1 ?_
              intro kt hkt
              rcases List.mem_cons.mp hkt with hkt | hkt
              · rw [hkt]; exact hdvd
              · exact hTS kt hkt

/-- Provenance invariant of the scan loop: every cached tile's pixels come
from rasterizing the `tw*th` (wrapping) bytes of the stream starting at
`tileDataOffset key fo`. -/
lemma scanTiles_content (fo tw th : Nat) (pal : List Colour) (D : List Nat) :
    ∀ (n : Nat) (r : Reader) (tm : List Nat) (ts : List (Nat × Tile))
      (tm' : List Nat) (ts' : List (Nat × Tile)) (r' : Reader),
      scanTiles fo tw th pal n r tm ts = .ok (tm', ts', r') →
      r.data = D →
      (∀ k t, lookupTile k ts = some t →
        create_tile_from_raw ((D.drop (tileDataOffset k fo)).take (tw * th % 2 ^ 32)) pal
          = some t.pixels) →
      ∀ k t, lookupTile k ts' = some t →
        create_tile_from_raw ((D.drop (tileDataOffset k fo)).take (tw * th % 2 ^ 32)) pal
          = some t.pixels := by
  intro n
  induction n with
  | zero =>
    intro r tm ts tm' ts' r' h _ hC
    injection h with h'
    injection h' with h1 h2
    injection h2 with h2 h3
    subst h1 h2
    exact hC
  | succ n ih =>
    intro r tm ts tm' ts' r' h hD hC
    rw [scanTiles] at h
    cases hU : readU32 r with
    | error e => rw [hU] at h; exact absurd h (by simp)
    | ok p =>
      obtain ⟨tile_id, r1⟩ := p
      rw [hU] at h
      simp only [] at h
      obtain ⟨hr1, _⟩ := readU32_ok hU
      have hr1d : r1.data = D := by rw [hr1, ← hD]
      by_cases hk : tile_id - tile_id % 4 = 0
      · rw [if_pos hk] at h
        exact ih _ _ _ _ _ _ h hr1d hC
      · rw [if_neg hk] at h
        by_cases hmem : (lookupTile (tile_id - tile_id % 4) ts).isSome
        · rw [if_pos hmem] at h
          exact ih _ _ _ _ _ _ h hr1d hC
        · rw [if_neg hmem] at h
          cases hRT : read_raw_tile r1 (tileDataOffset (tile_id - tile_id % 4) fo) tw th with
          | error e => rw [hRT] at h; exact absurd h (by simp)
          | ok q =>
            obtain ⟨raw, r2⟩ := q
            rw [hRT] at h
            simp only [] at h
            cases hCT : create_tile_from_raw raw pal with
            | none => rw [hCT] at h; exact absurd h (by simp)
            | some px =>
              rw [hCT] at h
              obtain ⟨hr2, hraw⟩ := read_raw_tile_ok hRT
              have hr2d : r2.data = D := by rw [hr2, hr1, ← hD]
              refine ih _ _ _ _ _ _ h hr2d ?_
              intro k t hkt
              by_cases hkk : k = tile_id - tile_id % 4
              · subst hkk
                simp only [lookupTile, if_pos rfl] at hkt
                injection hkt with hkt
                subst hkt
                show create_tile_from_raw _ pal = some px
                rw [← hCT, hraw, hr1d]
              · simp only [lookupTile, if_neg hkk] at hkt
                exact hC k t hkt

/-- Inversion of a successful `read_layer`: the recorded dimensions are the
four header words and `tile_map`/`tiles` are exactly what the scan loop
produced, starting from empty accumulators at position `r.pos + 28`
(16 header bytes plus the 12 skipped bytes). -/
lemma read_layer_inv {r : Reader} {fo : Nat} {pal : List Colour}
    {L : MapLayer} {r' : Reader}
    (h : read_layer r fo pal = .ok (L, r')) :
    scanTiles fo L.tile_width L.tile_height pal
      (L.map_width * L.map_height % 2 ^ 32)
      ⟨r.data, r.pos + 28⟩ [] [] = .ok (L.tile_map, L.tiles, r') := by
  unfold read_layer at h
  cases h1 : readU32 r with
  | error e => rw [h1] at h; exact absurd h (by simp)
  | ok p1 =>
    obtain ⟨tw, r1⟩ := p1
    rw [h1] at h
    simp only [] at h
    obtain ⟨e1, _⟩ := readU32_ok h1
    subst e1
    cases h2 : readU32 ⟨r.data, r.pos + 4⟩ with
    | error e => rw [h2] at h; exact absurd h (by simp)
    | ok p2 =>
      obtain ⟨th, r2⟩ := p2
      rw [h2] at h
      simp only [] at h
      obtain ⟨e2, _⟩ := readU32_ok h2
      subst e2
      cases h3 : readU32 ⟨r.data, r.pos + 4 + 4⟩ with
      | error e => rw [h3] at h; exact absurd h (by simp)
      | ok p3 =>
        obtain ⟨mw, r3⟩ := p3
        rw [h3] at h
        simp only [] at h
        obtain ⟨e3, _⟩ := readU32_ok h3
        subst e3
        cases h4 : readU32 ⟨r.data, r.pos + 4 + 4 + 4⟩ with
        | error e => rw [h4] at h; exact absurd h (by simp)
        | ok p4 =>
          obtain ⟨mh, r4⟩ := p4
          rw [h4] at h
          simp only [] at h
          obtain ⟨e4, _⟩ := readU32_ok h4
          subst e4
          simp only [] at h
          cases h5 : scanTiles fo tw th pal (mw * mh % 2 ^ 32)
              (seekRelative ⟨r.data, r.pos + 4 + 4 + 4 + 4⟩ 12) [] [] with
          | error e => rw [h5] at h; exact absurd h (by simp)
          | ok p5 =>
            obtain ⟨tm, ts, r6⟩ := p5
            rw [h5] at h
            injection h with h'
            injection h' with hL hr
            subst hr
            rw [← hL]
            show scanTiles fo tw th pal (mw * mh % 2 ^ 32) ⟨r.data, r.pos + 28⟩ [] []
              = .ok (tm, ts, r6)
            have heq : (seekRelative ⟨r.data, r.pos + 4 + 4 + 4 + 4⟩ 12) =
                (⟨r.data, r.pos + 28⟩ : Reader) := rfl
            rw [← heq]
            exact h5

/-- Under the no-underflow precondition the wrapping offset computation is
the genuine `key + 8 - fileOffsets`. -/
lemma tileDataOffset_eq {key fo : Nat} (hfo : fo < 2 ^ 32)
    (hle : fo ≤ key + 8) (hk : key + 8 < 2 ^ 32) :
    tileDataOffset key fo = key + DATA_HEADER_SIZE - fo := by
  unfold tileDataOffset DATA_HEADER_SIZE
  omega

/-- When `key + 8 < fileOffsets` the wrapping subtraction underflows: the
computed offset is `key + 8 + 2^32 - fileOffsets`, strictly beyond `key + 8`. -/
lemma tileDataOffset_underflow {key fo : Nat} (hfo : fo < 2 ^ 32)
    (hlt : key + 8 < fo) (hk : key + 8 < 2 ^ 32) :
    tileDataOffset key fo = key + 8 + 2 ^ 32 - fo ∧
    key + 8 < tileDataOffset key fo := by
  unfold tileDataOffset DATA_HEADER_SIZE
  omega

/-! ### Claims C3, C10, C7, C1 -/

/-- C3: the palette expansion extracts red from bits 14-10, green from bits
9-5 and blue from bits 4-0 of the packed 16-bit value, scaling each 5-bit
field into the high bits of an 8-bit channel (`specPaletteColour` is that
bitfield description written out); every packed input yields this one
determined `Colour`, and the packed value `0x7fff` decodes to
`(248, 248, 248)`. -/
theorem C3_palette_channel_expansion :
    (∀ p, decodeColour p = specPaletteColour p) ∧
    decodeColour 0x7fff = ⟨248, 248, 248⟩ :=
  ⟨decodeColour_eq_spec, by decide⟩

/-- C10: every channel of every decoded palette colour is a multiple of 8 in
the range 0..248, and in particular never 255. -/
theorem C10_channels_multiples_of_eight : ∀ p,
    (8 ∣ (decodeColour p).r ∧ (decodeColour p).r ≤ 248 ∧ (decodeColour p).r ≠ 255) ∧
    (8 ∣ (decodeColour p).g ∧ (decodeColour p).g ≤ 248 ∧ (decodeColour p).g ≠ 255) ∧
    (8 ∣ (decodeColour p).b ∧ (decodeColour p).b ≤ 248 ∧ (decodeColour p).b ≠ 255) := by
  intro p
  rw [decodeColour_eq_spec]
  unfold specPaletteColour
  refine ⟨⟨(channel_shape _).1, (channel_shape _).2, ?_⟩,
    ⟨(channel_shape _).1, (channel_shape _).2, ?_⟩,
    ⟨(channel_shape _).1, (channel_shape _).2, ?_⟩⟩ <;>
    simp only [] <;> have := and_1f_shiftLeft_le (p >>> 10) <;>
    have := and_1f_shiftLeft_le (p >>> 5) <;> have := and_1f_shiftLeft_le p <;> omega

/-- C7: a successful `read_raw_tile` restores the reader to exactly the
position it held before the call (and changes no other reader state), so the
grid scan resumes where it left off. -/
theorem C7_read_raw_tile_restores_position (r : Reader) (offset width height : Nat)
    (buffer : List Nat) (r' : Reader)
    (h : read_raw_tile r offset width height = .ok (buffer, r')) : r' = r := by
  unfold read_raw_tile at h
  simp only [] at h
  cases hE : readExact (seekTo r offset) (width * height % 2 ^ 32) with
  | error e => rw [hE] at h; exact absurd h (by simp)
  | ok p =>
    obtain ⟨buf2, r2⟩ := p
    rw [hE] at h
    injection h with h'
    injection h' with hb hr
    have hd := (readExact_ok hE).1
    rw [← hr]
    show (⟨r2.data, r.pos⟩ : Reader) = r
    rw [hd]
    rfl

/-- Companion witness for C7 at the concrete reader `⟨[5,6,7], 2⟩`. -/
theorem C7_witness :
    read_raw_tile ⟨[5, 6, 7], 2⟩ 0 1 2 = .ok ([5, 6], ⟨[5, 6, 7], 2⟩) ∧
    (⟨[5, 6, 7], 2⟩ : Reader) = ⟨[5, 6, 7], 2⟩ :=
  ⟨rfl, C7_read_raw_tile_restores_position ⟨[5, 6, 7], 2⟩ 0 1 2 [5, 6]
    ⟨[5, 6, 7], 2⟩ rfl⟩

lemma create_tile_spec (palette : List Colour) :
    ∀ data : List Nat, (∀ b ∈ data, b ≠ 0 → b < palette.length) →
    ∃ px, create_tile_from_raw data palette = some px ∧
      px.length = 4 * data.length ∧
      ∀ i b, data.get? i = some b →
        (b = 0 → (px.drop (4 * i)).take 4 = [0, 0, 0, 0]) ∧
        (b ≠ 0 → ∃ c, palette.get? b = some c ∧
          (px.drop (4 * i)).take 4 = [c.r, c.g, c.b, 255]) := by
  intro data
  induction data with
  | nil =>
    intro _
    exact ⟨[], rfl, rfl, by intro i b h; simp at h⟩
  | cons b rest ih =>
    intro hvalid
    obtain ⟨px', hpx', hlen, hidx⟩ :=
      ih (fun x hx hxne => hvalid x (List.mem_cons_of_mem _ hx) hxne)
    by_cases hb : b = 0
    · refine ⟨0 :: 0 :: 0 :: 0 :: px', ?_, ?_, ?_⟩
      · simp [create_tile_from_raw, hb, hpx']
      · simp [hlen]; ring
      · intro i b' h
        cases i with
        | zero =>
          simp only [List.get?] at h
          injection h with h
          subst h
          exact ⟨fun _ => rfl, fun hne => absurd hb hne⟩
        | succ i =>
          have h4 : 4 * (i + 1) = 4 * i + 4 := by ring
          rw [h4]
          exact hidx i b' h
    · have hblt : b < palette.length := hvalid b (List.mem_cons_self _ _) hb
      have hc : palette.get? b = some (palette.get ⟨b, hblt⟩) := List.get?_eq_get hblt
      refine ⟨(palette.get ⟨b, hblt⟩).r :: (palette.get ⟨b, hblt⟩).g ::
        (palette.get ⟨b, hblt⟩).b :: 255 :: px', ?_, ?_, ?_⟩
      · have hc2 : palette[b]? = some (palette.get ⟨b, hblt⟩) := by
          rw [← List.get?_eq_getElem?]
          exact hc
        simp [create_tile_from_raw, hb, hc2, hpx']
      · simp [hlen]; ring
      · intro i b' h
        cases i with
        | zero =>
          simp only [List.get?] at h
          injection h with h
          subst h
          exact ⟨fun h0 => absurd h0 hb, fun _ => ⟨_, hc, rfl⟩⟩
        | succ i =>
          have h4 : 4 * (i + 1) = 4 * i + 4 := by ring
          rw [h4]
          exact hidx i b' h

/-- C1: for a raw buffer of `width*height` palette-index bytes whose non-zero
bytes are all valid palette indices, `create_tile_from_raw` succeeds with an
RGBA buffer of exactly `width*height*4` bytes in which, in input order, each
zero byte yields `(0,0,0,0)` regardless of `palette[0]` and each non-zero
byte `b` yields `(palette[b].r, palette[b].g, palette[b].b, 255)`. -/
theorem C1_tile_rasterizer (data : List Nat) (palette : List Colour)
    (width height : Nat) (hlen : data.length = width * height)
    (hvalid : ∀ b ∈ data, b ≠ 0 → b < palette.length) :
    ∃ px, create_tile_from_raw data palette = some px ∧
      px.length = width * height * 4 ∧
      ∀ i b, data.get? i = some b →
        (b = 0 → (px.drop (4 * i)).take 4 = [0, 0, 0, 0]) ∧
        (b ≠ 0 → ∃ c, palette.get? b = some c ∧
          (px.drop (4 * i)).take 4 = [c.r, c.g, c.b, 255]) := by
  obtain ⟨px, h1, h2, h3⟩ := create_tile_spec palette data hvalid
  exact ⟨px, h1, by rw [h2, hlen]; ring, h3⟩

/-- Companion witness for C1 on the 2×1 buffer `[0, 1]` with a two-entry
palette. -/
theorem C1_witness :
    ∃ px, create_tile_from_raw [0, 1] [⟨10, 20, 30⟩, ⟨16, 32, 48⟩] = some px ∧
      px.length = 2 * 1 * 4 ∧
      ∀ i b, [0, 1].get? i = some b →
        (b = 0 → (px.drop (4 * i)).take 4 = [0, 0, 0, 0]) ∧
        (b ≠ 0 → ∃ c, [(⟨10, 20, 30⟩ : Colour), ⟨16, 32, 48⟩].get? b = some c ∧
          (px.drop (4 * i)).take 4 = [c.r, c.g, c.b, 255]) :=
  C1_tile_rasterizer [0, 1] [⟨10, 20, 30⟩, ⟨16, 32, 48⟩] 2 1 rfl (by decide)

/-! ### Concrete streams used by witnesses and counterexamples -/

/-- A 45-byte single-layer stream (`fileOffsets = 0`): tile 1×1, map 2×1,
12 skipped bytes, tile codes `36` and `0`; the raw tile byte (palette
index 1) lives at position `36 + 8 - 0 = 44`. -/
def sampleLayerBytes : List Nat :=
  [1, 0, 0, 0, 1, 0, 0, 0, 2, 0, 0, 0, 1, 0, 0, 0,
   0, 0, 0, 0, 0, 0, 0, 0, 0, 0, 0, 0,
   36, 0, 0, 0, 0, 0, 0, 0,
   0, 0, 0, 0, 0, 0, 0, 0, 1]

/-- A two-entry palette for the sample layer. -/
def samplePalette : List Colour := [⟨10, 20, 30⟩, ⟨16, 32, 48⟩]

/-- A 28-byte layer header with `map_width = map_height = 65536`, whose
`u32` product wraps to 0. -/
def overflowLayerBytes : List Nat :=
  [1, 0, 0, 0, 1, 0, 0, 0, 0, 0, 1, 0, 0, 0, 1, 0,
   0, 0, 0, 0, 0, 0, 0, 0, 0, 0, 0, 0]

/-- A 32-byte layer (tile 0×1, map 1×1) with single tile code `4`; decoded
with `fileOffsets = 100`, so `4 + 8 < 100` underflows the offset
subtraction. -/
def underflowLayerBytes : List Nat :=
  [0, 0, 0, 0, 1, 0, 0, 0, 1, 0, 0, 0, 1, 0, 0, 0,
   0, 0, 0, 0, 0, 0, 0, 0, 0, 0, 0, 0,
   4, 0, 0, 0]

/-- A complete well-formed one-layer map stream (`fileOffsets = 0`):
4-byte version, layer count 1, layer offset 12 (seek target 20), one-entry
palette `0x7fff`, correct layer magic at offset 20, then a 2×2 all-zero
layer. -/
def goodMapBytes : List Nat :=
  [0, 0, 0, 0, 1, 0, 0, 0, 12, 0, 0, 0, 1, 0, 0, 0,
   255, 127, 0, 0,
   76, 82, 67, 83,
   1, 0, 0, 0, 1, 0, 0, 0, 2, 0, 0, 0, 2, 0, 0, 0,
   0, 0, 0, 0, 0, 0, 0, 0, 0, 0, 0, 0,
   0, 0, 0, 0, 0, 0, 0, 0, 0, 0, 0, 0, 0, 0, 0, 0]

/-- The same stream with the first magic byte corrupted (`0x4c` → `0x4d`),
making the magic word `0x5343524d`. -/
def corruptMapBytes : List Nat :=
  [0, 0, 0, 0, 1, 0, 0, 0, 12, 0, 0, 0, 1, 0, 0, 0,
   255, 127, 0, 0,
   77, 82, 67, 83,
   1, 0, 0, 0, 1, 0, 0, 0, 2, 0, 0, 0, 2, 0, 0, 0,
   0, 0, 0, 0, 0, 0, 0, 0, 0, 0, 0, 0,
   0, 0, 0, 0, 0, 0, 0, 0, 0, 0, 0, 0, 0, 0, 0, 0]

/-! ### Claims C2, C8, C4, C6, C9, C5 -/

/-- C2: for every layer produced by a successful `read_layer`, the key set of
`tiles` is exactly the set of non-zero values of `tile_map` — every non-zero
`tile_map` entry has a cache entry, the cache holds exactly one entry per
distinct such key (no duplicates), and no other keys. -/
theorem C2_tiles_keys_match_tile_map (r : Reader) (fo : Nat) (pal : List Colour)
    (L : MapLayer) (r' : Reader) (h : read_layer r fo pal = .ok (L, r')) :
    (∀ k, (lookupTile k L.tiles).isSome ↔ (k ∈ L.tile_map ∧ k ≠ 0)) ∧
    (L.tiles.map Prod.fst).Nodup := by
  refine scanTiles_keys _ _ _ _ _ _ _ _ _ _ _ (read_layer_inv h) ?_ ?_
  · intro k
    simp [lookupTile]
  · simp

/-- Companion witness for C2 on `sampleLayerBytes`. -/
theorem C2_witness :
    (∀ k, (lookupTile k [(36, (⟨[16, 32, 48, 255]⟩ : Tile))]).isSome ↔
      (k ∈ [36, 0] ∧ k ≠ 0)) ∧
    (([(36, (⟨[16, 32, 48, 255]⟩ : Tile))].map Prod.fst).Nodup) :=
  C2_tiles_keys_match_tile_map ⟨sampleLayerBytes, 0⟩ 0 samplePalette
    ⟨2, 1, 1, 1, [36, 0], [(36, ⟨[16, 32, 48, 255]⟩)]⟩ ⟨sampleLayerBytes, 36⟩ rfl

/-- C8: every `tile_map` value and every `tiles` key of a successfully read
layer is divisible by 4 (the low 2 bits are cleared by the normalization
`tile_id - tile_id % 4` before any push or insert). -/
theorem C8_keys_divisible_by_four (r : Reader) (fo : Nat) (pal : List Colour)
    (L : MapLayer) (r' : Reader) (h : read_layer r fo pal = .ok (L, r')) :
    (∀ v ∈ L.tile_map, 4 ∣ v) ∧ (∀ kt ∈ L.tiles, 4 ∣ kt.1) :=
  scanTiles_div4 _ _ _ _ _ _ _ _ _ _ _ (read_layer_inv h)
    (by intro v hv; simp at hv) (by intro kt hkt; simp at hkt)

/-- Companion witness for C8 on `sampleLayerBytes`. -/
theorem C8_witness :
    (∀ v ∈ [36, 0], 4 ∣ v) ∧
    (∀ kt ∈ [(36, (⟨[16, 32, 48, 255]⟩ : Tile))], 4 ∣ kt.1) :=
  C8_keys_divisible_by_four ⟨sampleLayerBytes, 0⟩ 0 samplePalette
    ⟨2, 1, 1, 1, [36, 0], [(36, ⟨[16, 32, 48, 255]⟩)]⟩ ⟨sampleLayerBytes, 36⟩ rfl

/-- C4 (amended): a successful `read_layer` yields `tile_map` of length
`map_width * map_height` computed in wrapping 32-bit arithmetic (the `u32`
product of the source), and the stream must actually contain those
`4 * map_size` grid bytes after the 28 header bytes — a stream that is
truncated before the last tile code cannot yield a layer.  The unwrapped
product of the original claim fails when `map_width * map_height ≥ 2^32`,
see the counterexample. -/
theorem C4_tile_map_length (r : Reader) (fo : Nat) (pal : List Colour)
    (L : MapLayer) (r' : Reader) (h : read_layer r fo pal = .ok (L, r')) :
    L.tile_map.length = L.map_width * L.map_height % 2 ^ 32 ∧
    (0 < L.map_width * L.map_height % 2 ^ 32 →
      r.pos + 28 + 4 * (L.map_width * L.map_height % 2 ^ 32) ≤ r.data.length) := by
  obtain ⟨l, d, p, b⟩ := scanTiles_shape _ _ _ _ _ _ _ _ _ _ _ (read_layer_inv h)
  constructor
  · simpa using l
  · intro hpos
    simpa using b hpos

/-- Companion witness for C4's amended statement on `sampleLayerBytes`. -/
theorem C4_witness :
    ([36, 0] : List Nat).length = 2 * 1 % 2 ^ 32 ∧
    (0 < 2 * 1 % 2 ^ 32 → 0 + 28 + 4 * (2 * 1 % 2 ^ 32) ≤ sampleLayerBytes.length) :=
  C4_tile_map_length ⟨sampleLayerBytes, 0⟩ 0 samplePalette
    ⟨2, 1, 1, 1, [36, 0], [(36, ⟨[16, 32, 48, 255]⟩)]⟩ ⟨sampleLayerBytes, 36⟩ rfl

/-- Counterexample to C4 as stated: with `map_width = map_height = 65536`
the `u32` product wraps to 0, so `read_layer` succeeds on a 28-byte stream
with an empty `tile_map`, whose length 0 differs from the mathematical
product `65536 * 65536`. -/
theorem C4_counterexample :
    read_layer ⟨overflowLayerBytes, 0⟩ 0 [] =
      .ok (⟨65536, 65536, 1, 1, [], []⟩, ⟨overflowLayerBytes, 28⟩) ∧
    (⟨65536, 65536, 1, 1, [], []⟩ : MapLayer).tile_map.length ≠
      (⟨65536, 65536, 1, 1, [], []⟩ : MapLayer).map_width *
        (⟨65536, 65536, 1, 1, [], []⟩ : MapLayer).map_height :=
  ⟨rfl, by decide⟩

/-- C6: every cached tile of a successfully read layer was rasterized from
the `tile_width * tile_height` raw bytes read at stream position
`key + DATA_HEADER_SIZE - fileOffsets` (with `DATA_HEADER_SIZE = 8`), under
the no-underflow/no-overflow side conditions of the `u32` arithmetic. -/
theorem C6_tile_read_position (r : Reader) (fo : Nat) (pal : List Colour)
    (L : MapLayer) (r' : Reader) (h : read_layer r fo pal = .ok (L, r'))
    (k : Nat) (t : Tile) (hk : lookupTile k L.tiles = some t)
    (hfo : fo < 2 ^ 32) (hle : fo ≤ k + 8) (hbound : k + 8 < 2 ^ 32) :
    tileDataOffset k fo = k + DATA_HEADER_SIZE - fo ∧
    create_tile_from_raw
      ((r.data.drop (k + DATA_HEADER_SIZE - fo)).take
        (L.tile_width * L.tile_height % 2 ^ 32)) pal = some t.pixels := by
  have hoff := tileDataOffset_eq hfo hle hbound
  have hc := scanTiles_content fo L.tile_width L.tile_height pal r.data
    _ _ _ _ _ _ _ (read_layer_inv h) rfl
    (by intro k' t' hk'; simp [lookupTile] at hk') k t hk
  rw [hoff] at hc
  exact ⟨hoff, hc⟩

/-- Companion witness for C6: in `sampleLayerBytes` the tile keyed 36 was
read from position 44 = 36 + 8 - 0. -/
theorem C6_witness :
    tileDataOffset 36 0 = 36 + DATA_HEADER_SIZE - 0 ∧
    create_tile_from_raw
      ((sampleLayerBytes.drop (36 + DATA_HEADER_SIZE - 0)).take (1 * 1 % 2 ^ 32))
      samplePalette = some (⟨[16, 32, 48, 255]⟩ : Tile).pixels :=
  C6_tile_read_position ⟨sampleLayerBytes, 0⟩ 0 samplePalette
    ⟨2, 1, 1, 1, [36, 0], [(36, ⟨[16, 32, 48, 255]⟩)]⟩ ⟨sampleLayerBytes, 36⟩ rfl
    36 ⟨[16, 32, 48, 255]⟩ rfl (by norm_num) (by norm_num) (by norm_num)

/-- C9: the offset computation `key + 8 - fileOffsets` is an unchecked
wrapping `u32` subtraction: it equals the true difference only under the
precondition `fileOffsets ≤ key + 8`, and when `key + 8 < fileOffsets` it
underflows to the wrapped value `key + 8 + 2^32 - fileOffsets` (beyond
`key + 8`) with no dedicated error; concretely, `underflowLayerBytes`
decoded with `fileOffsets = 100` has the non-zero key 4 with
`4 + 8 < 100`, and `read_layer` still returns `ok` — no decode error
reports the underflow. -/
theorem C9_offset_subtraction_unchecked :
    (∀ key fo, fo < 2 ^ 32 → key + 8 < 2 ^ 32 →
      (fo ≤ key + 8 → tileDataOffset key fo = key + 8 - fo) ∧
      (key + 8 < fo → tileDataOffset key fo = key + 8 + 2 ^ 32 - fo ∧
        key + 8 < tileDataOffset key fo)) ∧
    read_layer ⟨underflowLayerBytes, 0⟩ 100 [] =
      .ok (⟨1, 1, 0, 1, [4], [(4, ⟨[]⟩)]⟩, ⟨underflowLayerBytes, 32⟩) := by
  constructor
  · intro key fo hfo hk
    exact ⟨fun hle => tileDataOffset_eq hfo hle hk,
      fun hlt => tileDataOffset_underflow hfo hlt hk⟩
  · rfl

/-- Companion witness for C9 at `key = 4`, `fileOffsets = 100`. -/
theorem C9_witness :
    tileDataOffset 4 100 = 4 + 8 + 2 ^ 32 - 100 ∧ 4 + 8 < tileDataOffset 4 100 :=
  (C9_offset_subtraction_unchecked.1 4 100 (by norm_num) (by norm_num)).2
    (by norm_num)

/-- C5: `parse_map` validates the 4-byte layer magic: whenever the `u32` read
at a layer's seek target is not `LAYER_MAGIC`, the decode fails with an error
carrying the layer index, the magic found and the stream offset; concretely,
the otherwise well-formed one-layer stream `goodMapBytes` decodes, while
`corruptMapBytes` (same bytes, magic corrupted) fails naming layer 0. -/
theorem C5_layer_magic_validation :
    (∀ (fo : Nat) (pal : List Colour) (lo : Nat) (rest : List Nat) (i : Nat)
      (r r2 : Reader) (m : Nat),
      readU32 (seekTo r (layerSeekTarget lo fo)) = .ok (m, r2) →
      m ≠ LAYER_MAGIC →
      parseLayers fo pal (lo :: rest) i r = .error (.invalidMagic i m r2.pos)) ∧
    parse_map ⟨corruptMapBytes, 0⟩ 0 = .error (.invalidMagic 0 0x5343524d 24) ∧
    parse_map ⟨goodMapBytes, 0⟩ 0 = .ok ⟨[⟨2, 2, 1, 1, [0, 0, 0, 0], []⟩]⟩ := by
  refine ⟨?_, rfl, rfl⟩
  intro fo pal lo rest i r r2 m hread hne
  simp only [parseLayers]
  rw [hread]
  simp only []
  rw [if_neg hne]

/-- Companion witness for C5: applying the magic-mismatch property at the
concrete corrupted stream. -/
theorem C5_witness :
    parseLayers 0 [] [12] 0 ⟨corruptMapBytes, 18⟩ =
      .error (.invalidMagic 0 0x5343524d 24) :=
  C5_layer_magic_validation.1 0 [] 12 [] 0 ⟨corruptMapBytes, 18⟩
    ⟨corruptMapBytes, 24⟩ 0x5343524d rfl (by decide)

end KKND2
